import Mathlib

/-!
Verification of the pomel-iot repository: a shallow embedding of the
relay scheduler (src/relay.rs), the durable ring-buffer queue
(src/queue.rs), the message codec (src/telegram.rs) and the command
parser / queue drain of the control loop (src/main.rs), together with
theorems settling the specification claims.

Modelling conventions:
- `u8`/`u32`/`u64` become `Nat`; wrapping arithmetic is explicit
  (`% 2 ^ 32`) where the source relies on it.
- byte strings (`&str`, `&[u8]`) become `List Nat` of byte values;
  the NVS key-value store backing the queue becomes a function
  `Nat → Option (List Nat)` keyed by the slot address byte.
- fallible operations return `Except String` (an `anyhow` error is its
  message); a Rust `panic!` / failed `assert!` is an `Except.error`
  whose text says so.
- in-place mutation (`&mut self`) becomes explicit state passing: a
  method returns its result paired with the updated receiver.
- GPIO pin writes (`set_high` / `set_low`) are modelled as infallible
  boolean assignments; the clock (`sys_now`) becomes a `now` parameter.
-/

namespace Pomel

/-! ## Durable queue (src/queue.rs, `FMemQueue`) -/

/-- `FMemQueue::QUEUE_LIMIT` (src/queue.rs line 63). -/
def QUEUE_LIMIT : Nat := 20

/-- `FMemQueue::START_INDEX` = 0x41 (src/queue.rs line 64). -/
def START_INDEX : Nat := 65

/-- `FMemQueue` (src/queue.rs lines 55-60): the two cursor bytes plus the
NVS storage, modelled as a map from slot address byte to stored blob. -/
structure FMemQueue where
  head : Nat
  tail : Nat
  store : Nat → Option (List Nat)

/-- `FMemQueue::increment` (src/queue.rs lines 148-154). -/
def increment (index : Nat) : Nat :=
  if index = START_INDEX + QUEUE_LIMIT - 1 then START_INDEX else index + 1

/-- `FMemQueue::is_empty` (src/queue.rs lines 138-140). -/
def FMemQueue.is_empty (q : FMemQueue) : Bool :=
  decide (q.head = q.tail)

/-- `FMemQueue::is_full` (src/queue.rs lines 142-146). -/
def FMemQueue.is_full (q : FMemQueue) : Bool :=
  decide (increment q.tail = q.head)

/-- `FMemQueue::enqueue` (src/queue.rs lines 85-99): when full it returns
`!is_full` (which is `false` there); otherwise it stores the blob at the
tail address, advances the tail cursor, and returns the literal `false`. -/
def FMemQueue.enqueue (q : FMemQueue) (value : List Nat) : Bool × FMemQueue :=
  if q.is_full then (!q.is_full, q)
  else
    (false,
      { q with
        store := fun a => if a = q.tail then some value else q.store a,
        tail := increment q.tail })

/-- `FMemQueue::peek` (src/queue.rs lines 109-123): `Except.ok none` when
empty; the `None => panic` arm of the source becomes an error value. -/
def FMemQueue.peek (q : FMemQueue) : Except String (Option (List Nat)) :=
  if q.is_empty then .ok none
  else
    match q.store q.head with
    | none => .error "peek: stored value missing"
    | some v => .ok (some v)

/-- `FMemQueue::remove_first` (src/queue.rs lines 125-136): `false` and
no change when empty, otherwise deletes the blob at the head address,
advances the head cursor and returns `true`. -/
def FMemQueue.remove_first (q : FMemQueue) : Bool × FMemQueue :=
  if q.is_empty then (false, q)
  else
    (true,
      { q with
        store := fun a => if a = q.head then none else q.store a,
        head := increment q.head })

/-- `FMemQueue::dequeue` (src/queue.rs lines 101-107): peek, then
`match remove_first with true => panic, false => Some(peek)`; the
`panic!()` arm becomes an error value. -/
def FMemQueue.dequeue (q : FMemQueue) : Except String (Option (List Nat)) × FMemQueue :=
  match q.peek with
  | .error e => (.error e, q)
  | .ok none => (.ok none, q)
  | .ok (some v) =>
    let r := q.remove_first
    match r.1 with
    | true => (.error "dequeue: panicked", r.2)
    | false => (.ok (some v), r.2)

/-- A queue with both cursors at `c` and no stored blobs: the state
`FMemQueue::new` produces on first boot (cursors default to
`START_INDEX`), generalised to an arbitrary cursor position. -/
def emptyQ (c : Nat) : FMemQueue :=
  { head := c, tail := c, store := fun _ => none }

/-- `increment` iterated `n` times. -/
def incN (a : Nat) : Nat → Nat
  | 0 => a
  | n + 1 => increment (incN a n)

/-- Number of live entries, for cursors inside the address alphabet. -/
def FMemQueue.qsize (q : FMemQueue) : Nat :=
  (QUEUE_LIMIT + q.tail - q.head) % QUEUE_LIMIT

/-- Left fold of `enqueue` over a list of messages, ignoring the
returned flags (as the control loop does). -/
def enqueueAll (q : FMemQueue) (ms : List (List Nat)) : FMemQueue :=
  ms.foldl (fun q m => (q.enqueue m).2) q

/-- Concrete full queue (head = 65, tail = 84, `increment 84 = 65`). -/
def fullQ : FMemQueue :=
  { head := 65, tail := 84, store := fun _ => none }

/-- Concrete one-entry queue: blob `[9]` at head 65, tail 66. -/
def oneQ : FMemQueue :=
  { head := 65, tail := 66, store := fun a => if a = 65 then some [9] else none }

/-- C2: for every queue state and message, if the queue is full, enqueue
returns not-accepted and leaves head, tail and every slot unchanged; if
not full, it writes the serialized message at the tail slot, advances
tail, and returns accepted (`true`). The code violates the last part:
the success path of `FMemQueue::enqueue` ends in a literal `return
false`, so a successful enqueue reports `false` even though the message
was stored and the tail advanced. Evaluated here at the failing input
(an empty queue and the message `[1, 2, 3]`), together with the full
case, which does behave as claimed. -/
theorem C2_enqueue_success_returns_false :
    ((emptyQ 65).enqueue [1, 2, 3]).1 = false ∧
    ((emptyQ 65).enqueue [1, 2, 3]).2.tail = 66 ∧
    ((emptyQ 65).enqueue [1, 2, 3]).2.head = 65 ∧
    ((emptyQ 65).enqueue [1, 2, 3]).2.store 65 = some [1, 2, 3] ∧
    fullQ.is_full = true ∧
    fullQ.enqueue [1, 2, 3] = (false, fullQ) := by
  refine ⟨rfl, rfl, rfl, rfl, rfl, rfl⟩

/-- Closed form of `increment` on the address alphabet. -/
theorem increment_formula (a : Nat) (h1 : 65 ≤ a) (h2 : a < 85) :
    increment a = 65 + (a - 65 + 1) % 20 := by
  simp only [increment, START_INDEX, QUEUE_LIMIT]
  split <;> omega

/-- Closed form of `incN` on the address alphabet. -/
theorem incN_formula (a : Nat) (h1 : 65 ≤ a) (h2 : a < 85) :
    ∀ n, incN a n = 65 + (a - 65 + n) % 20 := by
  intro n
  induction n with
  | zero => simp only [incN]; omega
  | succ n ih =>
    simp only [incN]
    rw [ih, increment_formula _ (by omega) (by omega)]
    omega

/-- State of the queue after enqueueing a list of messages, starting
from a queue whose cursors are `k` slots apart: the head cursor is
untouched, the tail advances once per message, previously stored slots
are preserved, and the `j`-th new message sits `k + j` slots past the
head. Holds as long as the queue never fills (`k + ms.length ≤ 19`). -/
theorem enqueueAll_spec (c : Nat) (hc1 : 65 ≤ c) (hc2 : c < 85) :
    ∀ (ms : List (List Nat)) (k : Nat) (q : FMemQueue),
      q.head = c → q.tail = incN c k → k + ms.length ≤ 19 →
      (enqueueAll q ms).head = c ∧
      (enqueueAll q ms).tail = incN c (k + ms.length) ∧
      (∀ i, i < k → (enqueueAll q ms).store (incN c i) = q.store (incN c i)) ∧
      (∀ j (hj : j < ms.length),
        (enqueueAll q ms).store (incN c (k + j)) = some (ms.get ⟨j, hj⟩)) := by
  intro ms
  induction ms with
  | nil =>
    intro k q hh ht hk
    exact ⟨hh, by simpa using ht, fun i _ => rfl, fun j hj => absurd hj (by simp)⟩
  | cons m rest ih =>
    intro k q hh ht hk
    have hlen : (m :: rest).length = rest.length + 1 := rfl
    have hfull : q.is_full = false := by
      simp only [FMemQueue.is_full, decide_eq_false_iff_not]
      rw [ht, hh]
      have h1 : increment (incN c k) = incN c (k + 1) := rfl
      rw [h1, incN_formula c hc1 hc2]
      rw [hlen] at hk
      omega
    have hq2 : (q.enqueue m).2 =
        { q with
          store := fun a => if a = q.tail then some m else q.store a,
          tail := increment q.tail } := by
      simp [FMemQueue.enqueue, hfull]
    have hstep : enqueueAll q (m :: rest) = enqueueAll (q.enqueue m).2 rest := rfl
    have hh2 : (q.enqueue m).2.head = c := by rw [hq2]; exact hh
    have ht2 : (q.enqueue m).2.tail = incN c (k + 1) := by
      rw [hq2]
      show increment q.tail = incN c (k + 1)
      rw [ht]; rfl
    obtain ⟨H1, H2, H3, H4⟩ :=
      ih (k + 1) (q.enqueue m).2 hh2 ht2 (by rw [hlen] at hk; omega)
    rw [hstep]
    refine ⟨H1, ?_, ?_, ?_⟩
    · rw [H2]
      have : k + 1 + rest.length = k + (m :: rest).length := by rw [hlen]; omega
      rw [this]
    · intro i hi
      rw [H3 i (by omega), hq2]
      show (if incN c i = q.tail then some m else q.store (incN c i)) = q.store (incN c i)
      rw [ht, if_neg]
      intro heq
      rw [incN_formula c hc1 hc2, incN_formula c hc1 hc2] at heq
      omega
    · intro j hj
      match j with
      | 0 =>
        have h0 : k + 0 = k := rfl
        rw [h0, H3 k (by omega), hq2]
        show (if incN c k = q.tail then some m else q.store (incN c k)) = some ((m :: rest).get ⟨0, hj⟩)
        rw [ht, if_pos rfl]
        rfl
      | j' + 1 =>
        have hj' : j' < rest.length := by rw [hlen] at hj; omega
        have := H4 j' hj'
        have hidx : k + 1 + j' = k + (j' + 1) := by omega
        rw [hidx] at this
        rw [this]
        rfl

/-- The 19 concrete singleton messages `[0], [1], ..., [18]`. -/
def msgs19 : List (List Nat) := (List.range 19).map (fun i => [i])

/-- C7: cursor increment is `(addr + 1 - base) mod LIMIT + base` on the
20-value alphabet (so `base + LIMIT - 1` wraps to `base`), and starting
from an empty queue at any cursor position, 19 enqueues store all 19
messages at consecutive slots from the cursor, after which the queue is
full and a 20th enqueue is rejected, returning not-accepted and leaving
the state unchanged. -/
theorem C7_increment_wrap_capacity :
    (∀ addr, START_INDEX ≤ addr → addr < START_INDEX + QUEUE_LIMIT →
      increment addr = (addr + 1 - START_INDEX) % QUEUE_LIMIT + START_INDEX) ∧
    (∀ c, 65 ≤ c → c < 85 → ∀ ms : List (List Nat), ms.length = 19 →
      (enqueueAll (emptyQ c) ms).head = c ∧
      (enqueueAll (emptyQ c) ms).tail = incN c 19 ∧
      (∀ j (hj : j < ms.length),
        (enqueueAll (emptyQ c) ms).store (incN c j) = some (ms.get ⟨j, hj⟩)) ∧
      (enqueueAll (emptyQ c) ms).is_full = true ∧
      (∀ m, (enqueueAll (emptyQ c) ms).enqueue m = (false, enqueueAll (emptyQ c) ms))) := by
  constructor
  · intro addr h1 h2
    simp only [increment, START_INDEX, QUEUE_LIMIT] at *
    split <;> omega
  · intro c hc1 hc2 ms hms
    obtain ⟨H1, H2, H3, H4⟩ :=
      enqueueAll_spec c hc1 hc2 ms 0 (emptyQ c) rfl rfl (by omega)
    have hfull : (enqueueAll (emptyQ c) ms).is_full = true := by
      simp only [FMemQueue.is_full, decide_eq_true_eq]
      rw [H1, H2, hms]
      show incN c 20 = c
      rw [incN_formula c hc1 hc2]
      omega
    refine ⟨H1, by rw [H2, hms], fun j hj => by simpa using H4 j hj, hfull, ?_⟩
    intro m
    simp [FMemQueue.enqueue, hfull]

/-- Witness for C7 at concrete inputs: the boundary wrap `84 → 65`, a
full queue after 19 enqueues from a fresh queue at the base cursor, the
fourth stored message, and the rejected 20th enqueue. -/
theorem C7_increment_wrap_capacity_witness :
    increment 84 = (84 + 1 - 65) % 20 + 65 ∧
    (enqueueAll (emptyQ 65) msgs19).is_full = true ∧
    (enqueueAll (emptyQ 65) msgs19).store (incN 65 3) =
      some (msgs19.get ⟨3, by decide⟩) ∧
    (enqueueAll (emptyQ 65) msgs19).enqueue [99] =
      (false, enqueueAll (emptyQ 65) msgs19) := by
  have h := C7_increment_wrap_capacity
  have h2 := h.2 65 (by decide) (by decide) msgs19 (by decide)
  exact ⟨h.1 84 (by decide) (by decide), h2.2.2.2.1, h2.2.2.1 3 (by decide), h2.2.2.2.2 [99]⟩

/-! ## Message codec (src/telegram.rs, `SendMessage`) -/

/-- `SendMessage` (src/telegram.rs lines 95-99); the text is its UTF-8
byte sequence (the source reads it back with `from_utf8_unchecked`, so
the codec works on raw bytes). -/
structure SendMessage where
  chat_id : Nat
  text : List Nat
deriving DecidableEq

/-- `SendMessage::into_bytes` (src/telegram.rs lines 102-109): the
4 big-endian bytes of the `u32` chat id followed by the text bytes. -/
def SendMessage.into_bytes (m : SendMessage) : List Nat :=
  [m.chat_id / 16777216 % 256, m.chat_id / 65536 % 256,
   m.chat_id / 256 % 256, m.chat_id % 256] ++ m.text

/-- `SendMessage::from_bytes` (src/telegram.rs lines 111-118): asserts
`buf.len() > 5` (the failed assertion is an error value here), then
reads the chat id from the first 4 bytes and the text from the rest. -/
def SendMessage.from_bytes (buf : List Nat) : Except String SendMessage :=
  if 5 < buf.length then
    .ok { chat_id := buf.getD 0 0 * 16777216 + buf.getD 1 0 * 65536 +
                     buf.getD 2 0 * 256 + buf.getD 3 0,
          text := buf.drop 4 }
  else .error "assertion failed: buf.len() greater than 5"

/-- The message `from_bytes` yields on a stored blob, with a junk
default on blobs the assertion rejects; the drain theorems use it only
under a live-slot hypothesis that rules the default out. -/
def decodeBlob (b : List Nat) : SendMessage :=
  match SendMessage.from_bytes b with
  | .ok m => m
  | .error _ => { chat_id := 0, text := [] }

/-- On blobs longer than 5 bytes the decode succeeds and yields
`decodeBlob`. -/
theorem from_bytes_decodeBlob (b : List Nat) (hb5 : 5 < b.length) :
    SendMessage.from_bytes b = .ok (decodeBlob b) := by
  simp only [SendMessage.from_bytes, decodeBlob]
  rw [if_pos hb5]

/-! ## Control-loop queue drain (src/main.rs, `send_message_queue`) -/

/-- Outcome of one `send_message_queue` call: `Ok(())`, an early
`return Err(err)` after a failed send, or a panic from
`MsgFMQueue::peek` (a live slot with no blob, or a stored blob failing
the `assert!(buf.len() > 5)` of `SendMessage::from_bytes`). -/
inductive SmqResult
  | ok
  | sendFail
  | storePanic
deriving DecidableEq

/-- The `for _ in 0..max_try` loop of `send_message_queue`
(src/main.rs lines 251-266), with the Notifier modelled as an oracle
`sendOk` giving the outcome of the k-th send attempt of this call.
Each iteration peeks the blob at head and decodes it with
`SendMessage::from_bytes` (that is `MsgFMQueue::peek`,
src/queue.rs lines 44-47); the decoded message is sent, a successful
send is followed by `remove_first`, a failed send returns immediately. -/
def drainLoop : (Nat → Bool) → FMemQueue → Nat → SmqResult × FMemQueue × List SendMessage
  | _, q, 0 => (.ok, q, [])
  | sendOk, q, fuel + 1 =>
    match q.peek with
    | .error _ => (.storePanic, q, [])
    | .ok none => (.ok, q, [])
    | .ok (some m) =>
      match SendMessage.from_bytes m with
      | .error _ => (.storePanic, q, [])
      | .ok msg =>
        if sendOk 0 then
          let r := drainLoop (fun i => sendOk (i + 1)) q.remove_first.2 fuel
          (r.1, r.2.1, msg :: r.2.2)
        else (.sendFail, q, [])

/-- `send_message_queue` (src/main.rs lines 237-269): early `Ok` when
the queue is empty, otherwise the bounded drain loop. The HTTP
connection setup between the two is external I/O and outside the model. -/
def send_message_queue (sendOk : Nat → Bool) (q : FMemQueue) (max_try : Nat) :
    SmqResult × FMemQueue × List SendMessage :=
  if q.is_empty then (.ok, q, []) else drainLoop sendOk q max_try

/-- `incN` commutes with a leading `increment`. -/
theorem incN_succ_comm (a : Nat) : ∀ n, incN (increment a) n = incN a (n + 1) := by
  intro n
  induction n with
  | zero => rfl
  | succ n ih => show increment (incN (increment a) n) = incN a (n + 2); rw [ih]; rfl

/-- The queue size is below the slot count. -/
theorem qsize_lt (q : FMemQueue) (_h1 : 65 ≤ q.head) (_h2 : q.head < 85)
    (_h3 : 65 ≤ q.tail) (_h4 : q.tail < 85) : q.qsize < 20 := by
  simp only [FMemQueue.qsize, QUEUE_LIMIT]
  omega

/-- A queue that does not report empty holds at least one entry. -/
theorem qsize_pos (q : FMemQueue) (h1 : 65 ≤ q.head) (h2 : q.head < 85)
    (h3 : 65 ≤ q.tail) (h4 : q.tail < 85) (hne : q.is_empty = false) :
    1 ≤ q.qsize := by
  simp only [FMemQueue.is_empty, decide_eq_false_iff_not] at hne
  simp only [FMemQueue.qsize, QUEUE_LIMIT]
  omega

/-- Effect of `remove_first` on a non-empty queue: head advances, tail
is untouched, the size drops by one, and every slot other than the old
head keeps its blob. -/
theorem remove_first_spec (q : FMemQueue) (h1 : 65 ≤ q.head) (h2 : q.head < 85)
    (h3 : 65 ≤ q.tail) (h4 : q.tail < 85) (hne : q.is_empty = false) :
    q.remove_first.2.head = increment q.head ∧
    q.remove_first.2.tail = q.tail ∧
    q.remove_first.2.qsize = q.qsize - 1 ∧
    (∀ a, a ≠ q.head → q.remove_first.2.store a = q.store a) := by
  simp only [FMemQueue.is_empty, decide_eq_false_iff_not] at hne
  have hrm : q.remove_first =
      (true,
        { q with
          store := fun a => if a = q.head then none else q.store a,
          head := increment q.head }) := by
    simp [FMemQueue.remove_first, FMemQueue.is_empty, hne]
  refine ⟨by rw [hrm], by rw [hrm], ?_, ?_⟩
  · rw [hrm]
    show (QUEUE_LIMIT + q.tail - increment q.head) % QUEUE_LIMIT = q.qsize - 1
    simp only [FMemQueue.qsize, increment, START_INDEX, QUEUE_LIMIT]
    split <;> omega
  · intro a ha
    rw [hrm]
    show (if a = q.head then none else q.store a) = q.store a
    rw [if_neg ha]

/-- And the old head is distinct from every later live slot, so those
slots are preserved by `remove_first`. -/
theorem incN_ne_head (q : FMemQueue) (h1 : 65 ≤ q.head) (h2 : q.head < 85)
    (i : Nat) (hi : 0 < i) (hi' : i < 20) : incN q.head i ≠ q.head := by
  rw [incN_formula q.head h1 h2]
  omega

/-- Behaviour of the drain loop: some `n ≤ fuel` entries, all within
the queue, are removed (head advances `n` slots, tail untouched), the
sent list is exactly the first `n` head entries, decoded, in order,
each of those sends succeeded, and a send-failure outcome means the
`n`-th send failed with the failed entry still stored at the new head.
The live-slot hypothesis requires each stored blob to be longer than
5 bytes, as every blob drained must pass the decode assertion of
`SendMessage::from_bytes` (shorter blobs make the program panic at
peek). -/
theorem drainLoop_spec :
    ∀ (fuel : Nat) (sendOk : Nat → Bool) (q : FMemQueue),
      65 ≤ q.head → q.head < 85 → 65 ≤ q.tail → q.tail < 85 →
      (∀ i, i < q.qsize → ∃ b, q.store (incN q.head i) = some b ∧ 5 < b.length) →
      ∃ n, n ≤ fuel ∧ n ≤ q.qsize ∧
        (drainLoop sendOk q fuel).2.1.head = incN q.head n ∧
        (drainLoop sendOk q fuel).2.1.tail = q.tail ∧
        (drainLoop sendOk q fuel).2.2 =
          (List.range n).map (fun i => decodeBlob ((q.store (incN q.head i)).getD [])) ∧
        (∀ i, i < n → sendOk i = true) ∧
        ((drainLoop sendOk q fuel).1 = SmqResult.sendFail →
          sendOk n = false ∧ n < q.qsize ∧
          (drainLoop sendOk q fuel).2.1.store ((drainLoop sendOk q fuel).2.1.head) =
            q.store (incN q.head n)) := by
  intro fuel
  induction fuel with
  | zero =>
    intro sendOk q _ _ _ _ _
    exact ⟨0, by omega, by omega, rfl, rfl, rfl, fun i hi => absurd hi (by omega),
      fun h => by exact absurd h (by simp [drainLoop])⟩
  | succ fuel ih =>
    intro sendOk q h1 h2 h3 h4 hlive
    by_cases hemp : q.is_empty = true
    · have hpeek : q.peek = .ok none := by simp [FMemQueue.peek, hemp]
      have hred : drainLoop sendOk q (fuel + 1) = (.ok, q, []) := by
        simp only [drainLoop, hpeek]
      rw [hred]
      exact ⟨0, by omega, by omega, rfl, rfl, rfl, fun i hi => absurd hi (by omega),
        fun h => by exact absurd h (by simp)⟩
    · have hemp' : q.is_empty = false := by
        cases h : q.is_empty
        · rfl
        · exact absurd h hemp
      have hq1 : 1 ≤ q.qsize := qsize_pos q h1 h2 h3 h4 hemp'
      have hqlt : q.qsize < 20 := qsize_lt q h1 h2 h3 h4
      obtain ⟨b, hb, hb5⟩ := hlive 0 (by omega)
      have hbh : q.store q.head = some b := hb
      have hpeek : q.peek = .ok (some b) := by
        simp [FMemQueue.peek, hemp', hbh]
      have hdec : SendMessage.from_bytes b = .ok (decodeBlob b) :=
        from_bytes_decodeBlob b hb5
      by_cases hsend : sendOk 0 = true
      · -- successful send, then recurse on the shortened queue
        obtain ⟨hrh, hrt, hrs, hrpres⟩ := remove_first_spec q h1 h2 h3 h4 hemp'
        have hb := increment_formula q.head h1 h2
        have hq2h1 : 65 ≤ q.remove_first.2.head := by rw [hrh]; omega
        have hq2h2 : q.remove_first.2.head < 85 := by rw [hrh]; omega
        have hq2h3 : 65 ≤ q.remove_first.2.tail := by rw [hrt]; omega
        have hq2h4 : q.remove_first.2.tail < 85 := by rw [hrt]; omega
        have hshift : ∀ i, i < q.qsize - 1 →
            q.remove_first.2.store (incN q.remove_first.2.head i) =
              q.store (incN q.head (i + 1)) := by
          intro i hi
          rw [hrh, incN_succ_comm]
          exact hrpres _ (incN_ne_head q h1 h2 (i + 1) (by omega) (by omega))
        have hlive2 : ∀ i, i < q.remove_first.2.qsize →
            ∃ b2, q.remove_first.2.store (incN q.remove_first.2.head i) = some b2 ∧
              5 < b2.length := by
          intro i hi
          rw [hrs] at hi
          rw [hshift i hi]
          exact hlive (i + 1) (by omega)
        obtain ⟨n, hn1, hn2, Hh, Ht, Hs, Hok, Hfail⟩ :=
          ih (fun i => sendOk (i + 1)) q.remove_first.2 hq2h1 hq2h2 hq2h3 hq2h4 hlive2
        have hred : drainLoop sendOk q (fuel + 1) =
            ((drainLoop (fun i => sendOk (i + 1)) q.remove_first.2 fuel).1,
             (drainLoop (fun i => sendOk (i + 1)) q.remove_first.2 fuel).2.1,
             decodeBlob b ::
               (drainLoop (fun i => sendOk (i + 1)) q.remove_first.2 fuel).2.2) := by
          simp only [drainLoop, hpeek, hdec, hsend, if_true]
        rw [hrs] at hn2
        refine ⟨n + 1, by omega, by omega, ?_, ?_, ?_, ?_, ?_⟩
        · rw [hred]
          show (drainLoop (fun i => sendOk (i + 1)) q.remove_first.2 fuel).2.1.head =
            incN q.head (n + 1)
          rw [Hh, hrh, incN_succ_comm]
        · rw [hred]
          show (drainLoop (fun i => sendOk (i + 1)) q.remove_first.2 fuel).2.1.tail = q.tail
          rw [Ht, hrt]
        · rw [hred]
          show decodeBlob b ::
              (drainLoop (fun i => sendOk (i + 1)) q.remove_first.2 fuel).2.2 =
            (List.range (n + 1)).map (fun i => decodeBlob ((q.store (incN q.head i)).getD []))
          rw [Hs, List.range_succ_eq_map, List.map_cons, List.map_map]
          congr 1
          · show decodeBlob b = decodeBlob ((q.store (incN q.head 0)).getD [])
            show decodeBlob b = decodeBlob ((q.store q.head).getD [])
            rw [hbh]
            rfl
          · apply List.map_congr_left
            intro i hi
            have hilt : i < n := List.mem_range.mp hi
            show decodeBlob ((q.remove_first.2.store (incN q.remove_first.2.head i)).getD []) =
              decodeBlob ((q.store (incN q.head (i + 1))).getD [])
            rw [hshift i (by omega)]
        · intro i hi
          match i with
          | 0 => exact hsend
          | i' + 1 => exact Hok i' (by omega)
        · intro hfail
          rw [hred] at hfail
          obtain ⟨Hf1, Hf2, Hf3⟩ := Hfail hfail
          refine ⟨Hf1, by omega, ?_⟩
          rw [hred]
          show (drainLoop (fun i => sendOk (i + 1)) q.remove_first.2 fuel).2.1.store
              ((drainLoop (fun i => sendOk (i + 1)) q.remove_first.2 fuel).2.1.head) =
            q.store (incN q.head (n + 1))
          rw [Hf3, hshift n (by omega)]
      · -- failed send: stop immediately
        have hsend' : sendOk 0 = false := by
          cases h : sendOk 0
          · rfl
          · exact absurd h hsend
        have hred : drainLoop sendOk q (fuel + 1) = (.sendFail, q, []) := by
          simp only [drainLoop, hpeek, hdec, hsend', Bool.false_eq_true, if_false]
        rw [hred]
        refine ⟨0, by omega, by omega, rfl, rfl, rfl,
          fun i hi => absurd hi (by omega), fun _ => ⟨hsend', by omega, ?_⟩⟩
        show q.store q.head = q.store (incN q.head 0)
        rfl

/-- C9: in every `send_message_queue` call with attempt bound
`max_try`, some `n ≤ max_try` entries are removed (head advances `n`
slots), a queue entry is removed only after the send of that same
entry succeeded (the sent list is exactly the removed head entries, in
FIFO order, and each of those sends returned success), and on the
first send failure the drain stops and returns with the failed entry
still stored at head. Hypotheses: cursors lie in the 20-byte address
alphabet and every live slot holds a blob longer than 5 bytes (the
decode assertion `MsgFMQueue::peek` applies to every drained entry;
shorter blobs make the program panic before any send). -/
theorem C9_send_message_queue_fifo (sendOk : Nat → Bool) (q : FMemQueue)
    (max_try : Nat) (h1 : 65 ≤ q.head) (h2 : q.head < 85)
    (h3 : 65 ≤ q.tail) (h4 : q.tail < 85)
    (hlive : ∀ i, i < q.qsize → ∃ b, q.store (incN q.head i) = some b ∧ 5 < b.length) :
    ∃ n, n ≤ max_try ∧ n ≤ q.qsize ∧
      (send_message_queue sendOk q max_try).2.1.head = incN q.head n ∧
      (send_message_queue sendOk q max_try).2.1.tail = q.tail ∧
      (send_message_queue sendOk q max_try).2.2 =
        (List.range n).map (fun i => decodeBlob ((q.store (incN q.head i)).getD [])) ∧
      (∀ i, i < n → sendOk i = true) ∧
      ((send_message_queue sendOk q max_try).1 = SmqResult.sendFail →
        sendOk n = false ∧ n < q.qsize ∧
        (send_message_queue sendOk q max_try).2.1.store
            ((send_message_queue sendOk q max_try).2.1.head) =
          q.store (incN q.head n)) := by
  by_cases hemp : q.is_empty = true
  · have hred : send_message_queue sendOk q max_try = (.ok, q, []) := by
      simp [send_message_queue, hemp]
    rw [hred]
    exact ⟨0, by omega, by omega, rfl, rfl, rfl, fun i hi => absurd hi (by omega),
      fun h => by exact absurd h (by simp)⟩
  · have hemp' : q.is_empty = false := by
      cases h : q.is_empty
      · rfl
      · exact absurd h hemp
    have hred : send_message_queue sendOk q max_try = drainLoop sendOk q max_try := by
      simp [send_message_queue, hemp']
    rw [hred]
    exact drainLoop_spec max_try sendOk q h1 h2 h3 h4 hlive

/-- One-entry queue whose stored blob is a valid 6-byte record
(chat id 7, text "hi"): head 65, tail 66. -/
def oneMsgQ : FMemQueue :=
  { head := 65, tail := 66,
    store := fun a => if a = 65 then some [0, 0, 0, 7, 104, 105] else none }

/-- Witness for C9: the one-entry queue `oneMsgQ` (one well-formed
6-byte record) with a schedule whose first send fails, drained with
the control loop's bound of 8 attempts. -/
theorem C9_send_message_queue_fifo_witness :
    ∃ n, n ≤ 8 ∧ n ≤ oneMsgQ.qsize ∧
      (send_message_queue (fun _ => false) oneMsgQ 8).2.1.head = incN oneMsgQ.head n ∧
      (send_message_queue (fun _ => false) oneMsgQ 8).2.1.tail = oneMsgQ.tail ∧
      (send_message_queue (fun _ => false) oneMsgQ 8).2.2 =
        (List.range n).map (fun i => decodeBlob ((oneMsgQ.store (incN oneMsgQ.head i)).getD [])) ∧
      (∀ i, i < n → (fun _ => false) i = true) ∧
      ((send_message_queue (fun _ => false) oneMsgQ 8).1 = SmqResult.sendFail →
        (fun _ => false) n = false ∧ n < oneMsgQ.qsize ∧
        (send_message_queue (fun _ => false) oneMsgQ 8).2.1.store
            ((send_message_queue (fun _ => false) oneMsgQ 8).2.1.head) =
          oneMsgQ.store (incN oneMsgQ.head n)) :=
  C9_send_message_queue_fifo (fun _ => false) oneMsgQ 8 (by decide) (by decide)
    (by decide) (by decide)
    (by
      intro i hi
      have h1 : oneMsgQ.qsize = 1 := rfl
      have h0 : i = 0 := by omega
      subst h0
      exact ⟨[0, 0, 0, 7, 104, 105], rfl, by decide⟩)

/-- C3: dequeue on a non-empty queue should return `Some` of the head
entry with the entry already removed, and `None` on an empty queue. The
code violates the non-empty part: after a successful peek,
`remove_first` returns `true` (entry removed), and `dequeue` matches
`true => panic!()`, so dequeue panics on every non-empty queue instead
of returning the entry. Evaluated at the failing input `oneQ` (single
entry `[9]`): peek sees the entry, remove_first would succeed, yet
dequeue ends in the panic arm; the empty case does return `None`. -/
theorem C3_dequeue_panics_on_nonempty :
    oneQ.peek = .ok (some [9]) ∧
    oneQ.remove_first.1 = true ∧
    oneQ.dequeue.1 = .error "dequeue: panicked" ∧
    (emptyQ 65).dequeue.1 = .ok none := by
  refine ⟨rfl, rfl, rfl, rfl⟩

/-! ## Relay bank (src/relay.rs) -/

/-- `RunOrder` (src/relay.rs lines 8-12); `Time` is an epoch-seconds
`u64`, modelled as `Nat`. -/
structure RunOrder where
  start_at : Nat
  end_at : Nat
deriving DecidableEq

/-- `SetState` (src/relay.rs lines 32-36). -/
inductive SetState
  | Run (ord : RunOrder)
  | Stop
deriving DecidableEq

/-- `Event` (src/relay.rs lines 38-42). -/
structure Event where
  run_deadline : Bool
  name : String
deriving DecidableEq

/-- `Relay` (src/relay.rs lines 23-30); the GPIO pin driver becomes the
boolean `pinHigh` (pin writes modelled as infallible). -/
structure Relay where
  name : String
  pinHigh : Bool
  running : Option RunOrder
deriving DecidableEq

/-- `Relay::run` (src/relay.rs lines 53-60): refuses when already
running (returning before any mutation), otherwise records the order
in `running` first and only then performs the fallible
`pin.set_high()` write, whose outcome is the `pinErr` parameter
(`none` = success); a failed write therefore leaves the new order
already recorded with the pin level unchanged. -/
def Relay.run (r : Relay) (ord : RunOrder) (pinErr : Option String) :
    Except String Unit × Relay :=
  match r.running, pinErr with
  | some _, _ => (.error ("relay " ++ r.name ++ " at ON state, turn off first!"), r)
  | none, none => (.ok (), { r with running := some ord, pinHigh := true })
  | none, some e => (.error e, { r with running := some ord })

/-- `Relay::stop` (src/relay.rs lines 62-64): the fallible
`pin.set_low()` write (outcome `pinErr`); note that it does not touch
`running` either way. -/
def Relay.stop (r : Relay) (pinErr : Option String) : Except String Unit × Relay :=
  match pinErr with
  | none => (.ok (), { r with pinHigh := false })
  | some e => (.error e, r)

/-- `Relay::set` (src/relay.rs lines 66-71), with `pinErr` the outcome
of the one pin write the call may perform. -/
def Relay.set (r : Relay) (state : SetState) (pinErr : Option String) :
    Except String Unit × Relay :=
  match state with
  | .Run ord => r.run ord pinErr
  | .Stop => r.stop pinErr

/-- `Relay::is_run_deadline` (src/relay.rs lines 73-78). -/
def Relay.is_run_deadline (r : Relay) (now : Nat) : Bool :=
  match r.running with
  | some ro => decide (ro.end_at ≤ now)
  | none => false

/-- `RelayStatus` (src/relay.rs lines 220-223); its `Display` renders
"off" when `run_info` is `none` and "on" with the timestamps otherwise. -/
structure RelayStatus where
  name : String
  run_info : Option RunOrder
deriving DecidableEq

/-- `Relay::get_status` (src/relay.rs lines 80-85). -/
def Relay.get_status (r : Relay) : RelayStatus :=
  { name := r.name, run_info := r.running }

/-- `RelayAddr` (src/relay.rs lines 97-102). -/
inductive RelayAddr
  | First
  | Second
  | Both
deriving DecidableEq

/-- The discriminant values `First = 1, Second = 2, Both = 3`. -/
def RelayAddr.code : RelayAddr → Nat
  | .First => 1
  | .Second => 2
  | .Both => 3

/-- `DoubleRelay` (src/relay.rs lines 88-95). -/
structure DoubleRelay where
  first_relay : Relay
  second_relay : Relay
deriving DecidableEq

/-- `DoubleRelay::set` (src/relay.rs lines 120-131): bit 0 of the
address selects the first relay, bit 1 the second; the `?` operator
returns early on failure, keeping any mutation already made to the
first relay. `p1` and `p2` are the outcomes of the pin writes on the
first and second relay's drivers. -/
def DoubleRelay.set (d : DoubleRelay) (target : RelayAddr) (state : SetState)
    (p1 p2 : Option String) : Except String Unit × DoubleRelay :=
  let muxed := target.code
  let s1 :=
    if muxed % 2 = 1 then
      let r := d.first_relay.set state p1
      (r.1, { d with first_relay := r.2 })
    else (.ok (), d)
  match s1 with
  | (.error e, d1) => (.error e, d1)
  | (.ok _, d1) =>
    if muxed / 2 = 1 then
      let r := d1.second_relay.set state p2
      (r.1, { d1 with second_relay := r.2 })
    else (.ok (), d1)

/-- `DoubleRelayStatus` (src/relay.rs lines 206-209). -/
inductive DoubleRelayStatus
  | Single (s : RelayStatus)
  | Both (both : RelayStatus × RelayStatus)
deriving DecidableEq

/-- `DoubleRelay::get_status` (src/relay.rs lines 170-181). -/
def DoubleRelay.get_status (d : DoubleRelay) (target : RelayAddr) : DoubleRelayStatus :=
  match target with
  | .First => .Single d.first_relay.get_status
  | .Second => .Single d.second_relay.get_status
  | .Both => .Both (d.first_relay.get_status, d.second_relay.get_status)

/-- `DoubleRelay::pool_event` (src/relay.rs lines 146-168): reads the
clock (here the `now` parameter), asks each relay whether its deadline
passed, and builds the event array; the receiver is returned unchanged
because the source mutates nothing. -/
def DoubleRelay.pool_event (d : DoubleRelay) (now : Nat) :
    (Option Event × Option Event) × DoubleRelay :=
  let e1 := d.first_relay.is_run_deadline now
  let e2 := d.second_relay.is_run_deadline now
  ((if e1 then some { run_deadline := e1, name := d.first_relay.name } else none,
    if e2 then some { run_deadline := e2, name := d.second_relay.name } else none),
   d)

/-- Relay bank with the first relay running an order `[0, 60]` and the
second idle. -/
def relayFirstOn : DoubleRelay :=
  { first_relay :=
      { name := "pompa_air", pinHigh := true, running := some { start_at := 0, end_at := 60 } },
    second_relay := { name := "lain_lain", pinHigh := false, running := none } }

/-- Relay bank with the first relay idle and the second running an
order `[0, 100]`. -/
def relaySecondOn : DoubleRelay :=
  { first_relay := { name := "pompa_air", pinHigh := false, running := none },
    second_relay :=
      { name := "lain_lain", pinHigh := true, running := some { start_at := 0, end_at := 100 } } }

/-- C1: `set(address, Stop)` should drive the targeted relay's output
low and clear its running order, so that afterwards `running = None`
and `get_status` reports Off. The code violates the second half:
`Relay::stop` only calls `pin.set_low()` and never assigns
`self.running = None`, so after stopping a running relay the order is
still present and `get_status` still renders On. Evaluated at the
failing input: first relay running order `[0, 60]`, `set(First, Stop)`
succeeds and drives the pin low, yet `running` keeps the order and the
status is the On rendering, not Off. The pin writes succeed
(`none` outcomes): the bug is on the successful-pin execution. -/
theorem C1_stop_does_not_clear_running :
    (relayFirstOn.set .First .Stop none none).1 = .ok () ∧
    (relayFirstOn.set .First .Stop none none).2.first_relay.pinHigh = false ∧
    (relayFirstOn.set .First .Stop none none).2.first_relay.running =
      some { start_at := 0, end_at := 60 } ∧
    (relayFirstOn.set .First .Stop none none).2.get_status .First =
      .Single { name := "pompa_air", run_info := some { start_at := 0, end_at := 60 } } := by
  refine ⟨rfl, rfl, rfl, rfl⟩

/-- Reduction of `DoubleRelay::set` at address `Both` to the two
single-relay applications: first relay first, early return on its
failure (the second slot untouched), otherwise the second relay on the
(unchanged) second slot. -/
theorem set_both_eq (d : DoubleRelay) (s : SetState) (p1 p2 : Option String) :
    d.set .Both s p1 p2 =
      match (d.first_relay.set s p1).1 with
      | .error e => (.error e, { d with first_relay := (d.first_relay.set s p1).2 })
      | .ok _ =>
        ((d.second_relay.set s p2).1,
         { first_relay := (d.first_relay.set s p1).2,
           second_relay := (d.second_relay.set s p2).2 }) := by
  cases h1 : (d.first_relay.set s p1).1 with
  | error e =>
    show (match ((d.first_relay.set s p1).1,
        { d with first_relay := (d.first_relay.set s p1).2 }) with
      | (.error e, d1) => (Except.error e, d1)
      | (.ok _, d1) =>
        let r := d1.second_relay.set s p2
        (r.1, { d1 with second_relay := r.2 })) = _
    rw [h1]
  | ok u =>
    cases u
    show (match ((d.first_relay.set s p1).1,
        { d with first_relay := (d.first_relay.set s p1).2 }) with
      | (.error e, d1) => (Except.error e, d1)
      | (.ok _, d1) =>
        let r := d1.second_relay.set s p2
        (r.1, { d1 with second_relay := r.2 })) = _
    rw [h1]

/-- C4 counterexample: with the first relay idle and the second already
running, `set(Both, Run([5, 50]))` (pin writes succeeding) fails with
AlreadyRunning on the second relay, yet the first relay's running
order and output state have changed, while the instruction was not
applied to the second; so the claimed atomicity (apply to both, or
change neither) is false. -/
theorem C4_set_both_not_atomic_cex :
    (relaySecondOn.set .Both (.Run { start_at := 5, end_at := 50 }) none none).1 =
      .error "relay lain_lain at ON state, turn off first!" ∧
    relaySecondOn.first_relay.running = none ∧
    relaySecondOn.first_relay.pinHigh = false ∧
    (relaySecondOn.set .Both (.Run { start_at := 5, end_at := 50 })
      none none).2.first_relay.running = some { start_at := 5, end_at := 50 } ∧
    (relaySecondOn.set .Both (.Run { start_at := 5, end_at := 50 })
      none none).2.first_relay.pinHigh = true ∧
    (relaySecondOn.set .Both (.Run { start_at := 5, end_at := 50 })
      none none).2.second_relay = relaySecondOn.second_relay := by
  refine ⟨rfl, rfl, rfl, rfl, rfl, rfl⟩

/-- C4 amended: `set(Both, instruction)` is sequential, not atomic: it
applies the instruction to the first relay and, only if that returned
Ok, to the second. If both succeed, both updates are kept; if the
first application fails, the call returns early with the second relay
untouched and the first left in whatever state its own application
produced; if the second fails, the first relay's already-applied
change persists. A failing application can itself leave its relay
changed: `run` records the new order before the fallible pin write, so
only the AlreadyRunning failure is guaranteed not to change the relay. -/
theorem C4_set_both_sequential (d : DoubleRelay) (s : SetState) (p1 p2 : Option String) :
    ((d.first_relay.set s p1).1 = .ok () → (d.second_relay.set s p2).1 = .ok () →
      d.set .Both s p1 p2 =
        (.ok (), { first_relay := (d.first_relay.set s p1).2,
                   second_relay := (d.second_relay.set s p2).2 })) ∧
    (∀ e, (d.first_relay.set s p1).1 = .error e →
      d.set .Both s p1 p2 =
        (.error e, { d with first_relay := (d.first_relay.set s p1).2 })) ∧
    ((d.first_relay.set s p1).1 = .ok () → ∀ e, (d.second_relay.set s p2).1 = .error e →
      d.set .Both s p1 p2 =
        (.error e, { first_relay := (d.first_relay.set s p1).2,
                     second_relay := (d.second_relay.set s p2).2 })) ∧
    (∀ (rl : Relay) (ord : RunOrder) ro, rl.running = some ro →
      (rl.set (.Run ord) p1).2 = rl) ∧
    (∀ (rl : Relay) (ord : RunOrder) e, rl.running = none →
      (rl.set (.Run ord) p1).1 = .error e →
      (rl.set (.Run ord) p1).2 = { rl with running := some ord }) := by
  have hboth := set_both_eq d s p1 p2
  refine ⟨?_, ?_, ?_, ?_, ?_⟩
  · intro hf hs
    rw [hboth, hf, hs]
  · intro e hf
    rw [hboth, hf]
  · intro hf e hs
    rw [hboth, hf, hs]
  · intro rl ord ro hro
    obtain ⟨nm, ph, rn⟩ := rl
    cases rn with
    | none => exact Option.noConfusion hro
    | some ro2 => rfl
  · intro rl ord e hro herr
    obtain ⟨nm, ph, rn⟩ := rl
    cases rn with
    | some ro2 => exact Option.noConfusion hro
    | none =>
      cases p1 with
      | none => exact Except.noConfusion herr
      | some e2 => rfl

/-- Witness for C4 amended, at the counterexample input: the second
application fails with AlreadyRunning, the call reports that failure,
and the second relay is left as its own application left it
(unchanged, per the AlreadyRunning conjunct). -/
theorem C4_set_both_sequential_witness :
    (relaySecondOn.set .Both (.Run { start_at := 5, end_at := 50 }) none none).1 =
      .error "relay lain_lain at ON state, turn off first!" ∧
    (relaySecondOn.set .Both (.Run { start_at := 5, end_at := 50 }) none none).2.second_relay =
      relaySecondOn.second_relay := by
  have h :=
    (C4_set_both_sequential relaySecondOn (.Run { start_at := 5, end_at := 50 })
      none none).2.2.1 rfl "relay lain_lain at ON state, turn off first!" rfl
  rw [h]
  exact ⟨rfl, rfl⟩

/-- A relay's deadline flag is set exactly when it has a running order
whose end has passed. -/
theorem is_run_deadline_iff (r : Relay) (now : Nat) :
    r.is_run_deadline now = true ↔ ∃ ro, r.running = some ro ∧ ro.end_at ≤ now := by
  cases h : r.running with
  | none => simp [Relay.is_run_deadline, h]
  | some ro => simp [Relay.is_run_deadline, h]

/-- C6: `pool_event` yields a deadline event for a relay iff it has a
running order whose `end_at` has passed, yields no event for an idle
relay, and changes neither relay (running orders and output states are
untouched). -/
theorem C6_pool_event_deadline_iff (d : DoubleRelay) (now : Nat) :
    ((d.pool_event now).1.1.isSome = true ↔
      ∃ ro, d.first_relay.running = some ro ∧ ro.end_at ≤ now) ∧
    ((d.pool_event now).1.2.isSome = true ↔
      ∃ ro, d.second_relay.running = some ro ∧ ro.end_at ≤ now) ∧
    (d.first_relay.running = none → (d.pool_event now).1.1 = none) ∧
    (d.second_relay.running = none → (d.pool_event now).1.2 = none) ∧
    (d.pool_event now).2 = d := by
  refine ⟨?_, ?_, ?_, ?_, rfl⟩
  · rw [← is_run_deadline_iff]
    show (if d.first_relay.is_run_deadline now then
      some ({ run_deadline := d.first_relay.is_run_deadline now,
              name := d.first_relay.name } : Event)
      else none).isSome = true ↔ _
    cases hb : d.first_relay.is_run_deadline now <;> simp [hb]
  · rw [← is_run_deadline_iff]
    show (if d.second_relay.is_run_deadline now then
      some ({ run_deadline := d.second_relay.is_run_deadline now,
              name := d.second_relay.name } : Event)
      else none).isSome = true ↔ _
    cases hb : d.second_relay.is_run_deadline now <;> simp [hb]
  · intro hn
    have hb : d.first_relay.is_run_deadline now = false := by
      simp [Relay.is_run_deadline, hn]
    show (if d.first_relay.is_run_deadline now then
      some ({ run_deadline := d.first_relay.is_run_deadline now,
              name := d.first_relay.name } : Event)
      else none) = none
    simp [hb]
  · intro hn
    have hb : d.second_relay.is_run_deadline now = false := by
      simp [Relay.is_run_deadline, hn]
    show (if d.second_relay.is_run_deadline now then
      some ({ run_deadline := d.second_relay.is_run_deadline now,
              name := d.second_relay.name } : Event)
      else none) = none
    simp [hb]

/-- Witness for C6 at a concrete bank and time: the running first
relay's deadline (end 60) has passed at `now = 60` so an event is
yielded, the idle second relay yields none, and the bank is unchanged. -/
theorem C6_pool_event_deadline_iff_witness :
    (relayFirstOn.pool_event 60).1.1.isSome = true ∧
    (relayFirstOn.pool_event 60).1.2 = none ∧
    (relayFirstOn.pool_event 60).2 = relayFirstOn := by
  have h := C6_pool_event_deadline_iff relayFirstOn 60
  exact ⟨h.1.mpr ⟨{ start_at := 0, end_at := 60 }, rfl, le_rfl⟩, h.2.2.2.1 rfl, h.2.2.2.2⟩

/-- C5 counterexample: the claim includes the empty and the one-byte
text, but `from_bytes` asserts `buf.len() > 5`, so a serialized
message with text shorter than 2 bytes (buffer of 4 or 5 bytes) makes
`from_bytes` panic instead of returning the original message. -/
theorem C5_roundtrip_fails_on_short_text :
    SendMessage.from_bytes (SendMessage.into_bytes { chat_id := 0, text := [] }) =
      .error "assertion failed: buf.len() greater than 5" ∧
    SendMessage.from_bytes (SendMessage.into_bytes { chat_id := 0, text := [] }) ≠
      .ok { chat_id := 0, text := [] } ∧
    SendMessage.from_bytes (SendMessage.into_bytes { chat_id := 0, text := [97] }) ≠
      .ok { chat_id := 0, text := [97] } := by
  refine ⟨rfl, fun h => Except.noConfusion h, fun h => Except.noConfusion h⟩

/-- C5 amended: for every message whose `u32` chat id is in range and
whose text is at least 2 bytes (so the serialized buffer is longer
than 5 bytes and passes the assertion), serializing with `into_bytes`
and deserializing with `from_bytes` yields the original message. -/
theorem C5_roundtrip_text_len_ge_two (m : SendMessage)
    (h32 : m.chat_id < 4294967296) (hlen : 2 ≤ m.text.length) :
    SendMessage.from_bytes (SendMessage.into_bytes m) = .ok m := by
  obtain ⟨id, text⟩ := m
  simp only [SendMessage.into_bytes, SendMessage.from_bytes, List.cons_append,
    List.nil_append] at *
  rw [if_pos (by simp; omega)]
  simp only [List.getD_cons_zero, List.getD_cons_succ, List.drop_succ_cons,
    List.drop_zero, Except.ok.injEq, SendMessage.mk.injEq]
  exact ⟨by omega, trivial⟩

/-- Witness for C5 amended: the message with chat id 7 and the 2-byte
text "hi" round-trips. -/
theorem C5_roundtrip_text_len_ge_two_witness :
    SendMessage.from_bytes (SendMessage.into_bytes { chat_id := 7, text := [104, 105] }) =
      .ok { chat_id := 7, text := [104, 105] } :=
  C5_roundtrip_text_len_ge_two { chat_id := 7, text := [104, 105] } (by decide) (by simp)

/-! ## Command parsing (src/main.rs, `run_command`) -/

/-- UTF-8 bytes of an ASCII string literal, for writing byte-level
tokens readably. -/
def bytesOf (s : String) : List Nat := s.toList.map Char.toNat

/-- Rust's `str::split(' ')` at the byte level: splits on the space
byte, keeping empty pieces, and yields one (possibly empty) piece for
the empty input. -/
def splitSp : List Nat → List (List Nat)
  | [] => [[]]
  | b :: rest =>
    if b = 32 then [] :: splitSp rest
    else
      let r := splitSp rest
      (b :: r.headD []) :: r.tail

/-- Rust's `str::parse::<u32>` on a byte token: an optional leading
plus sign, then at least one decimal digit, with the value required to
fit in a `u32`. -/
def parseU32 (s : List Nat) : Option Nat :=
  let t := match s with
    | 43 :: rest => rest
    | _ => s
  if t = [] then none
  else if t.all (fun b => decide (48 ≤ b) && decide (b ≤ 57)) then
    let v := t.foldl (fun acc b => acc * 10 + (b - 48)) 0
    if v < 4294967296 then some v else none
  else none

/-- `u32` multiplication as in the release-profile build of
`duration * mul` (src/main.rs line 348): the product wraps modulo
`2 ^ 32`. -/
def u32Mul (a b : Nat) : Nat := a * b % 4294967296

/-- `INVALID_CMD` (src/main.rs line 297). -/
def INVALID_CMD : String := "Invalid Command"

/-- `INVALID_UNIT` (src/main.rs line 298). -/
def INVALID_UNIT : String := "Invalid unit, example: 1h (one hours)"

/-- `RelayQuery` (src/relay.rs lines 234-241), name as its byte
sequence. -/
structure RelayQuery where
  name : Option (List Nat)
  instruction : Option Bool
  duration : Option Nat
deriving DecidableEq

/-- The token-consuming body of `run_command` (src/main.rs lines
300-358), on the pieces produced by `split(' ')`; the final call
`relay.interprete(rlq)` is replaced by returning `rlq`, the parsed
query the parsing claims are about. `dur_str.split_at(len - 1)`
(src/main.rs line 337) panics when `len - 1` is not a UTF-8 char
boundary; in the valid UTF-8 a `&str` guarantees, that is exactly when
the byte at `len - 1` is a continuation byte (0x80 to 0xBF), i.e. when
the token's final character is multi-byte — modelled by the explicit
panic branch below. -/
def run_command_tokens (toks : List (List Nat)) : Except String RelayQuery :=
  match toks with
  | [] => .error INVALID_CMD
  | top :: rest =>
    if top = bytesOf "relay" then
      match rest with
      | [] => .error INVALID_CMD
      | r_name :: rest2 =>
        match rest2 with
        | [] => .error INVALID_CMD
        | r_instr :: rest3 =>
          let inst? : Option Bool :=
            if r_instr = bytesOf "on" then some true
            else if r_instr = bytesOf "off" then some false
            else none
          match inst? with
          | none => .error INVALID_CMD
          | some inst =>
            match rest3 with
            | [] => .ok { name := some r_name, instruction := some inst, duration := none }
            | r_pred :: rest4 =>
              if r_pred = bytesOf "for" then
                match rest4 with
                | [] => .error "expected \"... for [duration]\""
                | dur_str :: _ =>
                  if dur_str.length < 2 then .error INVALID_UNIT
                  else if 128 ≤ dur_str.getD (dur_str.length - 1) 0 ∧
                      dur_str.getD (dur_str.length - 1) 0 < 192 then
                    .error "panicked: split_at not on a char boundary"
                  else
                    let unit := dur_str.getD (dur_str.length - 1) 0
                    let dur := dur_str.take (dur_str.length - 1)
                    let mul? : Option Nat :=
                      if unit = 109 then some 60
                      else if unit = 104 then some 3600
                      else none
                    match mul? with
                    | none => .error INVALID_UNIT
                    | some mul =>
                      match parseU32 dur with
                      | none => .error INVALID_UNIT
                      | some duration =>
                        .ok { name := some r_name, instruction := some inst,
                              duration := some (u32Mul duration mul) }
              else .error "no matching pattern"
    else .error "unregister command"

/-- `run_command` on the command text (the message body after the
leading slash), as bytes. -/
def run_command (text : List Nat) : Except String RelayQuery :=
  run_command_tokens (splitSp text)

/-- Splitting never yields an empty piece list (the first `next()` of
the source's iterator always succeeds). -/
theorem splitSp_ne_nil : ∀ l : List Nat, splitSp l ≠ [] := by
  intro l
  cases l with
  | nil => simp [splitSp]
  | cons b rest => simp only [splitSp]; split <;> simp

/-- Reduction of the parser on a well-formed 5-token `for` command to
the duration logic. -/
theorem run_command_for_case (nm it du : List Nat) (inst : Bool)
    (hit : (it = bytesOf "on" ∧ inst = true) ∨ (it = bytesOf "off" ∧ inst = false)) :
    run_command_tokens [bytesOf "relay", nm, it, bytesOf "for", du] =
      (if du.length < 2 then .error INVALID_UNIT
       else if 128 ≤ du.getD (du.length - 1) 0 ∧ du.getD (du.length - 1) 0 < 192 then
         .error "panicked: split_at not on a char boundary"
       else
         match
           (if du.getD (du.length - 1) 0 = 109 then some 60
            else if du.getD (du.length - 1) 0 = 104 then some 3600
            else none : Option Nat) with
         | none => .error INVALID_UNIT
         | some mul =>
           match parseU32 (du.take (du.length - 1)) with
           | none => .error INVALID_UNIT
           | some duration =>
             .ok { name := some nm, instruction := some inst,
                   duration := some (u32Mul duration mul) }) := by
  rcases hit with ⟨h1, h2⟩ | ⟨h1, h2⟩ <;> subst h1 <;> subst h2 <;> rfl

/-- The command `relay foo on for 5é`, as UTF-8 bytes (0xC3 0xA9 is
the 2-byte encoding of the letter): a well-formed command whose
duration token ends in a multi-byte character. -/
def cmdMultibyteUnit : List Nat := bytesOf "relay foo on for 5" ++ [195, 169]

/-- C8 counterexample: the claim says a unit other than m or h yields
InvalidUnit, but on a duration token whose final character is
multi-byte the source panics at `split_at(len - 1)` (the index is not
a char boundary) instead of returning InvalidUnit. -/
theorem C8_run_command_panics_on_multibyte_unit :
    run_command cmdMultibyteUnit = .error "panicked: split_at not on a char boundary" ∧
    run_command cmdMultibyteUnit ≠ .error INVALID_UNIT := by
  refine ⟨rfl, fun h => ?_⟩
  rw [show run_command cmdMultibyteUnit =
    Except.error "panicked: split_at not on a char boundary" from rfl] at h
  exact absurd (Except.error.inj h) (by decide)

/-- C8 amended: `run_command` parses `relay <name> <on|off> [for
<duration>]`: the two concrete examples parse to the claimed queries;
on a well-formed `for` command whose duration token does not end in a
continuation byte, a token shorter than 2 bytes, a unit byte other
than `m`/`h`, or an unparsable integer yields InvalidUnit; a duration
token of 2 or more bytes ending in a continuation byte (a multi-byte
final character) makes the parser panic at `split_at`; a missing name
or instruction token yields InvalidCommand; and a top-level keyword
other than `relay` yields UnregisteredCommand. -/
theorem C8_run_command_grammar :
    run_command (bytesOf "relay pompa_air on for 1h") =
      .ok { name := some (bytesOf "pompa_air"), instruction := some true,
            duration := some 3600 } ∧
    run_command (bytesOf "relay pompa_air off") =
      .ok { name := some (bytesOf "pompa_air"), instruction := some false,
            duration := none } ∧
    (∀ text nm it du, splitSp text = [bytesOf "relay", nm, it, bytesOf "for", du] →
      (it = bytesOf "on" ∨ it = bytesOf "off") →
      ¬(128 ≤ du.getD (du.length - 1) 0 ∧ du.getD (du.length - 1) 0 < 192) →
      (du.length < 2 ∨
        ¬(du.getD (du.length - 1) 0 = 109 ∨ du.getD (du.length - 1) 0 = 104) ∨
        parseU32 (du.take (du.length - 1)) = none) →
      run_command text = .error INVALID_UNIT) ∧
    (∀ text, splitSp text = [bytesOf "relay"] → run_command text = .error INVALID_CMD) ∧
    (∀ text nm, splitSp text = [bytesOf "relay", nm] →
      run_command text = .error INVALID_CMD) ∧
    (∀ text, (splitSp text).headD [] ≠ bytesOf "relay" →
      run_command text = .error "unregister command") ∧
    (∀ text nm it du, splitSp text = [bytesOf "relay", nm, it, bytesOf "for", du] →
      (it = bytesOf "on" ∨ it = bytesOf "off") →
      ¬ du.length < 2 →
      128 ≤ du.getD (du.length - 1) 0 → du.getD (du.length - 1) 0 < 192 →
      run_command text = .error "panicked: split_at not on a char boundary") := by
  refine ⟨rfl, rfl, ?_, ?_, ?_, ?_, ?_⟩
  · intro text nm it du hsplit hinst hbound hbad
    have hred : run_command text =
        run_command_tokens [bytesOf "relay", nm, it, bytesOf "for", du] := by
      rw [run_command, hsplit]
    obtain ⟨inst, hi⟩ : ∃ inst : Bool,
        (it = bytesOf "on" ∧ inst = true) ∨ (it = bytesOf "off" ∧ inst = false) := by
      rcases hinst with h | h
      · exact ⟨true, Or.inl ⟨h, rfl⟩⟩
      · exact ⟨false, Or.inr ⟨h, rfl⟩⟩
    rw [hred, run_command_for_case nm it du inst hi]
    rcases hbad with hlen | hunit | hparse
    · rw [if_pos hlen]
    · by_cases hlen2 : du.length < 2
      · rw [if_pos hlen2]
      · rw [if_neg hlen2, if_neg hbound, if_neg (fun hc => hunit (Or.inl hc)),
          if_neg (fun hc => hunit (Or.inr hc))]
    · by_cases hlen2 : du.length < 2
      · rw [if_pos hlen2]
      · rw [if_neg hlen2, if_neg hbound]
        by_cases hu1 : du.getD (du.length - 1) 0 = 109
        · rw [if_pos hu1, hparse]
        · by_cases hu2 : du.getD (du.length - 1) 0 = 104
          · rw [if_neg hu1, if_pos hu2, hparse]
          · rw [if_neg hu1, if_neg hu2]
  · intro text hsplit
    rw [run_command, hsplit]
    rfl
  · intro text nm hsplit
    rw [run_command, hsplit]
    rfl
  · intro text htop
    obtain ⟨top, ts, hsp⟩ : ∃ top ts, splitSp text = top :: ts := by
      cases h : splitSp text with
      | nil => exact absurd h (splitSp_ne_nil text)
      | cons a b => exact ⟨a, b, rfl⟩
    rw [hsp] at htop
    simp only [List.headD_cons] at htop
    rw [run_command, hsp]
    simp only [run_command_tokens]
    rw [if_neg htop]
  · intro text nm it du hsplit hinst hlen hb1 hb2
    have hred : run_command text =
        run_command_tokens [bytesOf "relay", nm, it, bytesOf "for", du] := by
      rw [run_command, hsplit]
    obtain ⟨inst, hi⟩ : ∃ inst : Bool,
        (it = bytesOf "on" ∧ inst = true) ∨ (it = bytesOf "off" ∧ inst = false) := by
      rcases hinst with h | h
      · exact ⟨true, Or.inl ⟨h, rfl⟩⟩
      · exact ⟨false, Or.inr ⟨h, rfl⟩⟩
    rw [hred, run_command_for_case nm it du inst hi, if_neg hlen, if_pos ⟨hb1, hb2⟩]

/-- Witness for C8 at the spec's own examples: a bad (single-byte)
unit, an unregistered top-level keyword, and a truncated command. -/
theorem C8_run_command_grammar_witness :
    run_command (bytesOf "relay foo on for 5x") = .error INVALID_UNIT ∧
    run_command (bytesOf "foo bar") = .error "unregister command" ∧
    run_command (bytesOf "relay pompa_air") = .error INVALID_CMD := by
  have h := C8_run_command_grammar
  refine ⟨?_, ?_, ?_⟩
  · exact h.2.2.1 (bytesOf "relay foo on for 5x") (bytesOf "foo") (bytesOf "on")
      (bytesOf "5x") (by rfl) (Or.inl rfl) (by decide) (Or.inr (Or.inl (by decide)))
  · exact h.2.2.2.2.2.1 (bytesOf "foo bar") (by decide)
  · exact h.2.2.2.2.1 (bytesOf "relay pompa_air") (bytesOf "pompa_air") (by rfl)

/-- C10: the duration computed by `run_command` is the `u32` product
`n * mul` evaluated modulo `2 ^ 32`; it agrees with the mathematical
product whenever that fits in a `u32`, but the well-formed command
`relay pompa_air on for 1300000h` overflows: the stored duration is
`1300000 * 3600 mod 2 ^ 32`, which differs from `1300000 * 3600`. -/
theorem C10_duration_u32_wrap :
    (∀ n, n * 3600 < 4294967296 → u32Mul n 3600 = n * 3600) ∧
    run_command (bytesOf "relay pompa_air on for 1300000h") =
      .ok { name := some (bytesOf "pompa_air"), instruction := some true,
            duration := some (u32Mul 1300000 3600) } ∧
    u32Mul 1300000 3600 = 1300000 * 3600 % 4294967296 ∧
    u32Mul 1300000 3600 ≠ 1300000 * 3600 := by
  exact ⟨fun n h => Nat.mod_eq_of_lt h, rfl, rfl, by decide⟩

/-- Witness for C10: a duration product that fits in `u32` is computed
exactly. -/
theorem C10_duration_u32_wrap_witness : u32Mul 1000 3600 = 1000 * 3600 :=
  C10_duration_u32_wrap.1 1000 (by decide)

end Pomel
